import Mathlib

/- Shallow embedding of the scoring and game-completion engine of
   visualiser/tournament/models.py (dipvis).

   Conventions: Python floats are modelled as exact rationals (ℚ); Django
   querysets of CentreCount rows are lists of records; code paths that raise
   an exception return Option, with none for the exception. -/

/-- Total number of supply centres on the board (TOTAL_SCS). -/
def TOTAL_SCS : Nat := 34

/-- Solo threshold: (TOTAL_SCS/2)+1 = 18 (WINNING_SCS, Python 2 integer division). -/
def WINNING_SCS : Nat := TOTAL_SCS / 2 + 1

/-- First game year (FIRST_YEAR); the synthetic start-of-game year is FIRST_YEAR-1. -/
def FIRST_YEAR : Nat := 1901

/-- The seven GreatPower rows. -/
inductive GreatPower
  | Austria
  | England
  | France
  | Germany
  | Italy
  | Russia
  | Turkey
deriving DecidableEq, Repr

/-- GreatPower.starting_centres: the standard-map data (Russia starts with 4
    supply centres, every other power with 3). -/
def GreatPower.starting_centres : GreatPower → Nat
  | .Russia => 4
  | _ => 3

/-- GreatPower.objects.all(). -/
def allPowers : List GreatPower :=
  [.Austria, .England, .France, .Germany, .Italy, .Russia, .Turkey]

/-- One CentreCount row for one game: (power, year, count). -/
structure CentreCount where
  power : GreatPower
  year : Nat
  count : Nat
deriving DecidableEq, Repr

/-- order_by('-count'): descending count; the tie order is arbitrary in the
    source (database order), modelled as a stable insertion sort. -/
def sortByCountDesc (ccs : List CentreCount) : List CentreCount :=
  ccs.insertionSort (fun a b => b.count ≤ a.count)

instance : IsTotal CentreCount (fun a b => b.count ≤ a.count) :=
  ⟨fun a b => le_total b.count a.count⟩

instance : IsTrans CentreCount (fun a b => b.count ≤ a.count) :=
  ⟨fun _ _ _ h1 h2 => le_trans h2 h1⟩

instance : IsTotal CentreCount (fun a b => b.year ≤ a.year) :=
  ⟨fun a b => le_total b.year a.year⟩

instance : IsTrans CentreCount (fun a b => b.year ≤ a.year) :=
  ⟨fun _ _ _ h1 h2 => le_trans h2 h1⟩

/-- GameScoringSystem._final_year: the year of the first record when ordered
    by descending year, i.e. the largest recorded year.  The source raises
    IndexError on an empty set; here that case yields 0. -/
def _final_year (ccs : List CentreCount) : Nat :=
  match ccs.insertionSort (fun a b => b.year ≤ a.year) with
  | [] => 0
  | sc :: _ => sc.year

/-- GameScoringSystem._final_year_scs: the records of the most recent year
    only, ordered largest count to smallest. -/
def _final_year_scs (ccs : List CentreCount) : List CentreCount :=
  sortByCountDesc (ccs.filter (fun sc => sc.year = _final_year ccs))

/-- GameScoringSystem._survivor_count: how many powers of the most recent
    year have a positive count. -/
def _survivor_count (ccs : List CentreCount) : Nat :=
  ((_final_year_scs ccs).filter (fun sc => 0 < sc.count)).length

/-- Game.soloer, reduced to the winning power: orders ALL of the game's
    centre counts (every recorded year) by descending count and checks the
    first, i.e. the highest, against WINNING_SCS.  The source returns the
    GamePlayer of that power (one player per power here, so the power stands
    for its player) and raises IndexError on a game with no records, a state
    Game.save makes unreachable. -/
def soloer (ccs : List CentreCount) : Option GreatPower :=
  match sortByCountDesc ccs with
  | [] => none
  | sc :: _ => if WINNING_SCS ≤ sc.count then some sc.power else none

/-- A DrawProposal, reduced to the powers filled into power_1..power_7. -/
structure DrawProposal where
  powers : List GreatPower
deriving DecidableEq, Repr

/-- DrawProposal.draw_size. -/
def DrawProposal.draw_size (d : DrawProposal) : Nat :=
  d.powers.length

/-- GScoringSolos.scores. -/
def gscoring_solos (ccs : List CentreCount) : List (GreatPower × ℚ) :=
  (_final_year_scs ccs).map (fun sc =>
    if WINNING_SCS ≤ sc.count then (sc.power, (100 : ℚ)) else (sc.power, 0))

/-- GScoringDrawSize.scores.  `dias` is the value of the is_dias() call the
    source makes but never uses; `draw` is Game.passed_draw(), the passed
    proposal if there is one.  The per-record if/elif chain of the source:
    a record at WINNING_SCS or more scores 100; otherwise, if anyone soloed
    (any year), the score is left at zero; otherwise, a power named in the
    passed draw scores 100/draw_size; otherwise a positive count scores
    100/survivors; otherwise 0. -/
def gscoring_draw_size (_dias : Bool) (draw : Option DrawProposal)
    (ccs : List CentreCount) : List (GreatPower × ℚ) :=
  let survivors := _survivor_count ccs
  let soloed := (soloer ccs).isSome
  (_final_year_scs ccs).map (fun sc =>
    if WINNING_SCS ≤ sc.count then (sc.power, (100 : ℚ))
    else if soloed then (sc.power, 0)
    else
      match draw with
      | some d =>
        if sc.power ∈ d.powers then (sc.power, 100 / (d.draw_size : ℚ))
        else if 0 < sc.count then (sc.power, 100 / (survivors : ℚ))
        else (sc.power, 0)
      | none =>
        if 0 < sc.count then (sc.power, 100 / (survivors : ℚ))
        else (sc.power, 0))

/-- The while loop at the top of adjust_rank_score: how many leading records
    have count equal to scs (the count of the first record). -/
def leadTies (scs : Nat) : List CentreCount → Nat
  | [] => 0
  | sc :: rest => if sc.count = scs then leadTies scs rest + 1 else 0

theorem leadTies_le (scs : Nat) (l : List CentreCount) : leadTies scs l ≤ l.length := by
  induction l with
  | nil => simp [leadTies]
  | cons a t ih =>
    simp only [leadTies, List.length_cons]
    split
    · omega
    · omega

theorem leadTies_cons_self (sc : CentreCount) (rest : List CentreCount) :
    leadTies sc.count (sc :: rest) = leadTies sc.count rest + 1 := by
  simp [leadTies]

/-- adjust_rank_score, as a function of its inputs (its return value is a
    fresh list in the source; the in-place mutation of the rank_points
    argument is captured separately by adjust_rank_score_post).  An empty
    rank_points list yields zero points for every remaining record; with a
    non-empty rank_points list and no records left the source raises
    IndexError reading centre_counts[0], modelled by none.  Otherwise the
    points of the positions of the leading tie group are summed (positions
    past the end of rank_points contribute nothing) and shared evenly, and
    the function recurses on the remainders of both lists. -/
def adjust_rank_score : List CentreCount → List ℚ → Option (List ℚ)
  | ccs, [] => some (List.replicate ccs.length 0)
  | [], _ :: _ => none
  | sc :: rest, rp :: rps =>
    let i := leadTies sc.count (sc :: rest)
    let points := ((rp :: rps).take i).sum
    match adjust_rank_score ((sc :: rest).drop i) ((rp :: rps).drop i) with
    | none => none
    | some tail => some (List.replicate i (points / (i : ℚ)) ++ tail)
termination_by ccs _ => ccs.length
decreasing_by
  simp only [List.length_drop]
  have h1 := leadTies_cons_self sc rest
  have h2 := leadTies_le sc.count rest
  simp only [List.length_cons]
  omega

/-- The state of the CALLER's rank_points list after adjust_rank_score
    returns: the source overwrites the entries of the leading tie group in
    place (appending when the group is larger than the list); the recursive
    call receives slices, which are fresh Python lists, so only the first
    group of the caller's list is affected.  With an empty rank_points list
    nothing is written; with records exhausted the IndexError is raised
    before the first write. -/
def adjust_rank_score_post (ccs : List CentreCount) (rps : List ℚ) : List ℚ :=
  match rps, ccs with
  | [], _ => []
  | _ :: _, [] => rps
  | rp :: rps', sc :: rest =>
    let i := leadTies sc.count (sc :: rest)
    let points := ((rp :: rps').take i).sum
    List.replicate i (points / (i : ℚ)) ++ (rp :: rps').drop i

/-- GScoringCDiplo.scores (returned value).  position_pts is the instance's
    [first_pts, second_pts, third_pts] list.  When adjust_rank_score returns
    a list it has exactly one entry per final-year record (adjust_rank_score_length),
    so the source's parallel iteration with index i is a zip; none models the
    IndexError escaping from adjust_rank_score. -/
def gscoring_cdiplo (soloer_pts played_pts loss_pts : ℚ) (position_pts : List ℚ)
    (ccs : List CentreCount) : Option (List (GreatPower × ℚ)) :=
  let final_scs := _final_year_scs ccs
  let top_count := match final_scs with
    | [] => 0
    | top :: _ => top.count
  (adjust_rank_score final_scs position_pts).map (fun rank_pts =>
    (final_scs.zip rank_pts).map (fun p =>
      if WINNING_SCS ≤ top_count then
        (p.1.power, if WINNING_SCS ≤ p.1.count then soloer_pts else loss_pts)
      else
        (p.1.power, played_pts + (p.1.count : ℚ) + p.2)))

/-- The initial position_pts of the 'CDiplo 80' entry of G_SCORING_SYSTEMS:
    first/second/third = 25/14/7. -/
def cdiplo_80_initial_pts : List ℚ := [25, 14, 7]

/-- The 'CDiplo 80' entry of G_SCORING_SYSTEMS (soloer_pts 80, played_pts 0,
    loss_pts 0), scoring with the instance's current position_pts list. -/
def cdiplo_80_scores (position_pts : List ℚ) (ccs : List CentreCount) :
    Option (List (GreatPower × ℚ)) :=
  gscoring_cdiplo 80 0 0 position_pts ccs

/-- GScoringSumOfSquares.scores.  When a record reaches WINNING_SCS the
    zero-initialised retval_solo dict, with 100 for each such record, is
    returned; otherwise each count squared is scaled by 100 and divided by
    the sum of the squares.  A zero sum of squares raises ZeroDivisionError
    in the source; in ℚ the division yields 0 (the claims only concern a
    positive sum of squares). -/
def gscoring_sum_of_squares (ccs : List CentreCount) : List (GreatPower × ℚ) :=
  let final_scs := _final_year_scs ccs
  let sum_of_squares : Nat := (final_scs.map (fun sc => sc.count * sc.count)).sum
  if final_scs.any (fun sc => WINNING_SCS ≤ sc.count) then
    final_scs.map (fun sc =>
      (sc.power, if WINNING_SCS ≤ sc.count then (100 : ℚ) else 0))
  else
    final_scs.map (fun sc =>
      (sc.power, (sc.count : ℚ) * sc.count * 100 / (sum_of_squares : ℚ)))

/-- Game.years_played: sorted(list(set of recorded years)). -/
def years_played (ccs : List CentreCount) : List Nat :=
  ((ccs.map (fun cc => cc.year)).dedup).insertionSort (fun a b => a ≤ b)

/-- Game.final_year: years_played()[-1]; none models the IndexError on a
    game with no records. -/
def game_final_year (ccs : List CentreCount) : Option Nat :=
  (years_played ccs).getLast?

/-- One get_or_create(power=, game=, year=FIRST_YEAR-1,
    count=power.starting_centres) call of the auto-create block of
    Game.save.  The lookup matches on all of power, year and count: an exact
    match is returned unchanged; with no year-1900 record for the power at
    all a fresh one is created; but a year-1900 record with a DIFFERENT
    count makes the create violate unique_together('power', 'game', 'year'),
    so the save aborts with IntegrityError, modelled by none. -/
def get_or_create_1900 (ccs : List CentreCount) (p : GreatPower) :
    Option (List CentreCount) :=
  if ccs.any (fun cc =>
      decide (cc.power = p ∧ cc.year = FIRST_YEAR - 1 ∧
        cc.count = p.starting_centres)) then
    some ccs
  else if ccs.any (fun cc => decide (cc.power = p ∧ cc.year = FIRST_YEAR - 1)) then
    none
  else
    some (ccs ++ [{ power := p, year := FIRST_YEAR - 1, count := p.starting_centres }])

/-- The auto-create block of Game.save: get_or_create for each power in
    turn; the first conflicting power aborts the save (IntegrityError). -/
def ensure1900 (ccs : List CentreCount) : Option (List CentreCount) :=
  allPowers.foldlM get_or_create_1900 ccs

/-- The distinct validation failures of recording a CentreCount. -/
inductive CCError
  | YearBeyondRoundEnd
  | MoreThanDouble
  | RecoverFromZero
  | BadYear
  | BadCount
deriving DecidableEq, Repr

/-- CentreCount.clean: first the round final-year guard (`if final_year and
    self.year > final_year`: None and 0 are both falsy), then the doubling
    and no-recovery-from-zero checks against the unique record of the same
    power at the previous year, skipped when there is none.  The queryset
    filter(power=..., year=self.year-1) is rendered as prev.year + 1 =
    cc.year, which also matches the source at year 0 (year-1 = -1 matches
    nothing); (power, game, year) is unique, so find? sees at most one
    match.  Returns the ValidationError raised, if any. -/
def centrecount_clean (round_final_year : Option Nat) (existing : List CentreCount)
    (cc : CentreCount) : Option CCError :=
  let fy_guard := match round_final_year with
    | some fy => decide (fy ≠ 0 ∧ fy < cc.year)
    | none => false
  if fy_guard then some .YearBeyondRoundEnd
  else
    match existing.find? (fun prev =>
        decide (prev.power = cc.power ∧ prev.year + 1 = cc.year)) with
    | some prev =>
      if 2 * prev.count < cc.count then some .MoreThanDouble
      else if prev.count = 0 ∧ 0 < cc.count then some .RecoverFromZero
      else none
    | none => none

/-- Recording a centre count: the field validators
    (validate_year_including_start and validate_sc_count; a negative count
    cannot occur for a Nat) followed by CentreCount.clean. -/
def record_centre_count (round_final_year : Option Nat) (existing : List CentreCount)
    (cc : CentreCount) : Option CCError :=
  if cc.year < FIRST_YEAR - 1 then some .BadYear
  else if TOTAL_SCS < cc.count then some .BadCount
  else centrecount_clean round_final_year existing cc

/-- A Game reduced to what the completion predicates read: its stored
    is_finished flag. -/
structure GameRec where
  is_finished : Bool
deriving DecidableEq, Repr

/-- A Round as the aggregate of its games. -/
structure RoundRec where
  games : List GameRec
deriving DecidableEq, Repr

/-- Round.is_finished: a round with no games reports False; otherwise True
    exactly when every game is finished. -/
def round_is_finished (r : RoundRec) : Bool :=
  if r.games.length = 0 then false
  else r.games.all (fun g => g.is_finished)

/-- A Tournament as the aggregate of its rounds. -/
structure TournamentRec where
  rounds : List RoundRec
deriving DecidableEq, Repr

/-- Tournament.is_finished: False as soon as some round is unfinished, True
    otherwise — vacuously True with no rounds. -/
def tournament_is_finished (t : TournamentRec) : Bool :=
  t.rounds.all (fun r => round_is_finished r)

/-- Dict lookup in a power-keyed score list. -/
def scoreOf (scores : List (GreatPower × ℚ)) (p : GreatPower) : Option ℚ :=
  (scores.find? (fun x => x.1 = p)).map (fun x => x.2)

/-- The persisted state around one game whose round is configured with the
    'CDiplo 80' game scoring system, 'Best game counts' round scoring and
    'Sum best N rounds' tournament scoring, in the common configuration of
    one game in its round, one round in its tournament and one (distinct)
    player per power, each power's player standing for its GamePlayer,
    RoundPlayer and TournamentPlayer rows.  position_pts is the mutable
    position list of the module-level CDiplo instance; fires counts how many
    times the finalization block of Game.save has run. -/
structure WorldState where
  ccs : List CentreCount
  is_finished : Bool
  position_pts : List ℚ
  gp_scores : List (GreatPower × ℚ)
  rp_scores : List (GreatPower × ℚ)
  tp_scores : List (GreatPower × ℚ)
  fires : Nat
deriving DecidableEq, Repr

/-- Game.save: always auto-creates the year-1900 records, then, whenever
    is_finished is true, recomputes the game scores (self.scores(True),
    which both returns the scores and mutates the instance's position_pts)
    and persists them on each GamePlayer; the round, now finished, has its
    scores recomputed from the just-stored game scores (RScoringBest calls
    g.scores() on the finished game, which reads the stored scores) and
    persisted, and likewise the tournament (TScoringSum reads the stored
    round scores); in this one-game-per-round configuration all three
    levels therefore store the same per-player values.  none models an
    exception escaping save (an IntegrityError from the auto-create block,
    an IndexError inside adjust_rank_score, or a KeyError for a power
    absent from the final year). -/
def game_save (w : WorldState) : Option WorldState :=
  match ensure1900 w.ccs with
  | none => none
  | some new_ccs =>
    if w.is_finished then
      match cdiplo_80_scores w.position_pts new_ccs with
      | none => none
      | some scs =>
        let new_pts := adjust_rank_score_post (_final_year_scs new_ccs) w.position_pts
        match allPowers.mapM (fun p => (scoreOf scs p).map (fun s => (p, s))) with
        | none => none
        | some gp =>
          some { ccs := new_ccs, is_finished := true, position_pts := new_pts,
                 gp_scores := gp, rp_scores := gp, tp_scores := gp,
                 fires := w.fires + 1 }
    else
      some { w with ccs := new_ccs }

/- ------------------------------------------------------------------ -/
/- Shared helper lemmas                                               -/
/- ------------------------------------------------------------------ -/

theorem mem_allPowers (p : GreatPower) : p ∈ allPowers := by
  cases p <;> simp [allPowers]

theorem get_or_create_1900_sound (ccs : List CentreCount) (p : GreatPower)
    (ccs2 : List CentreCount) (h : get_or_create_1900 ccs p = some ccs2) :
    (∀ cc ∈ ccs, cc ∈ ccs2) ∧
    ∃ cc ∈ ccs2, cc.power = p ∧ cc.year = FIRST_YEAR - 1 ∧
      cc.count = p.starting_centres := by
  unfold get_or_create_1900 at h
  split_ifs at h with h1 h2
  · obtain rfl := Option.some.inj h
    obtain ⟨cc, hmem, hdec⟩ := List.any_eq_true.mp h1
    exact ⟨fun cc hc => hc, cc, hmem, of_decide_eq_true hdec⟩
  · obtain rfl := Option.some.inj h
    refine ⟨fun cc hc => List.mem_append_left _ hc,
      { power := p, year := FIRST_YEAR - 1, count := p.starting_centres },
      List.mem_append_right _ (by simp), rfl, rfl, rfl⟩

theorem get_or_create_1900_of_has (ccs : List CentreCount) (p : GreatPower)
    (h : ∃ cc ∈ ccs, cc.power = p ∧ cc.year = FIRST_YEAR - 1 ∧
      cc.count = p.starting_centres) :
    get_or_create_1900 ccs p = some ccs := by
  obtain ⟨cc, hmem, hp⟩ := h
  unfold get_or_create_1900
  rw [if_pos (List.any_eq_true.mpr ⟨cc, hmem, decide_eq_true hp⟩)]

theorem foldlM_get_or_create_sound (ps : List GreatPower) :
    ∀ ccs ccs2 : List CentreCount,
      ps.foldlM get_or_create_1900 ccs = some ccs2 →
      (∀ cc ∈ ccs, cc ∈ ccs2) ∧
      ∀ p ∈ ps, ∃ cc ∈ ccs2, cc.power = p ∧ cc.year = FIRST_YEAR - 1 ∧
        cc.count = p.starting_centres := by
  induction ps with
  | nil =>
    intro ccs ccs2 h
    simp only [List.foldlM_nil] at h
    obtain rfl := Option.some.inj h
    exact ⟨fun cc hc => hc, by simp⟩
  | cons p ps ih =>
    intro ccs ccs2 h
    simp only [List.foldlM_cons] at h
    cases hstep : get_or_create_1900 ccs p with
    | none =>
      rw [hstep] at h
      simp at h
    | some s =>
      rw [hstep] at h
      obtain ⟨hpres1, hrec1⟩ := get_or_create_1900_sound ccs p s hstep
      obtain ⟨hpres2, hrec2⟩ := ih s ccs2 h
      refine ⟨fun cc hc => hpres2 cc (hpres1 cc hc), ?_⟩
      intro q hq
      rcases List.mem_cons.mp hq with rfl | hq2
      · obtain ⟨cc, hcm, hcp⟩ := hrec1
        exact ⟨cc, hpres2 cc hcm, hcp⟩
      · exact hrec2 q hq2

theorem foldlM_get_or_create_of_has (ps : List GreatPower) :
    ∀ ccs : List CentreCount,
      (∀ p ∈ ps, ∃ cc ∈ ccs, cc.power = p ∧ cc.year = FIRST_YEAR - 1 ∧
        cc.count = p.starting_centres) →
      ps.foldlM get_or_create_1900 ccs = some ccs := by
  induction ps with
  | nil =>
    intro ccs _
    rfl
  | cons p ps ih =>
    intro ccs h
    simp only [List.foldlM_cons]
    rw [get_or_create_1900_of_has ccs p (h p (by simp))]
    exact ih ccs (fun q hq => h q (by simp [hq]))

theorem ensure1900_sound (ccs ccs2 : List CentreCount)
    (h : ensure1900 ccs = some ccs2) :
    ∀ p : GreatPower, ∃ cc ∈ ccs2, cc.power = p ∧ cc.year = FIRST_YEAR - 1 ∧
      cc.count = p.starting_centres :=
  fun p => (foldlM_get_or_create_sound allPowers ccs ccs2 h).2 p (mem_allPowers p)

theorem ensure1900_idem (ccs ccs2 : List CentreCount)
    (h : ensure1900 ccs = some ccs2) : ensure1900 ccs2 = some ccs2 :=
  foldlM_get_or_create_of_has allPowers ccs2 (fun p hp =>
    (foldlM_get_or_create_sound allPowers ccs ccs2 h).2 p hp)

theorem years_played_ne_nil_of_mem (ccs : List CentreCount) (cc : CentreCount)
    (hmem : cc ∈ ccs) : years_played ccs ≠ [] := by
  have hy : cc.year ∈ ccs.map (fun cc => cc.year) := List.mem_map.mpr ⟨cc, hmem, rfl⟩
  have hd : cc.year ∈ (ccs.map (fun cc => cc.year)).dedup := List.mem_dedup.mpr hy
  have hs : cc.year ∈ years_played ccs := by
    unfold years_played
    exact ((List.perm_insertionSort _ _).mem_iff).mpr hd
  exact List.ne_nil_of_mem hs

/- ------------------------------------------------------------------ -/
/- C9: emptiness asymmetry of the is_finished predicates              -/
/- ------------------------------------------------------------------ -/

/-- Claim C9: a Tournament with zero rounds reports is_finished() = True
    (the all-rounds check is vacuous), while a Round with zero games reports
    is_finished() = False. -/
theorem c9_empty_tournament_finished_empty_round_not :
    tournament_is_finished { rounds := [] } = true ∧
    round_is_finished { games := [] } = false :=
  ⟨rfl, rfl⟩

/- ------------------------------------------------------------------ -/
/- C10: the 1900 centre counts after Game.save                        -/
/- ------------------------------------------------------------------ -/

/-- Claim C10 is false as stated: on a game whose ledger already holds a
    year-1900 record for Austria with count 5 (not her starting 3), the
    auto-create block's get_or_create lookup (which keys on the count too)
    misses, the create violates unique_together('power', 'game', 'year'),
    and the save aborts with IntegrityError, creating nothing. -/
theorem c10_counterexample_conflicting_1900_row :
    ensure1900 [⟨.Austria, 1900, 5⟩] = none ∧
    (5 : Nat) ≠ GreatPower.starting_centres .Austria := by
  constructor
  · decide
  · decide

/-- Claim C10 (amended): every save of a Game that completes creates (if
    absent) a year-1900 CentreCount for each power equal to that power's
    starting_centres — when some power already has a year-1900 record with a
    different count the save instead aborts with IntegrityError and creates
    nothing — so after any completed Game.save, years_played() is non-empty
    and final_year() is well defined. -/
theorem c10_save_creates_1900_counts (ccs ccs2 : List CentreCount)
    (h : ensure1900 ccs = some ccs2) :
    (∀ p : GreatPower, ∃ cc ∈ ccs2,
        cc.power = p ∧ cc.year = FIRST_YEAR - 1 ∧ cc.count = p.starting_centres) ∧
    years_played ccs2 ≠ [] ∧
    (game_final_year ccs2).isSome = true := by
  have hp := ensure1900_sound ccs ccs2 h
  obtain ⟨cc, hmem, -⟩ := hp .Austria
  have hne := years_played_ne_nil_of_mem ccs2 cc hmem
  refine ⟨hp, hne, ?_⟩
  simp [game_final_year, List.getLast?_isSome, hne]

/-- Witness for c10_save_creates_1900_counts: saving a game with an empty
    ledger creates exactly the seven starting records. -/
theorem c10_save_creates_1900_counts_witness :
    ensure1900 [] = some
      [⟨.Austria, 1900, 3⟩, ⟨.England, 1900, 3⟩, ⟨.France, 1900, 3⟩,
       ⟨.Germany, 1900, 3⟩, ⟨.Italy, 1900, 3⟩, ⟨.Russia, 1900, 4⟩,
       ⟨.Turkey, 1900, 3⟩] ∧
    ((∀ p : GreatPower, ∃ cc ∈ ([⟨.Austria, 1900, 3⟩, ⟨.England, 1900, 3⟩,
        ⟨.France, 1900, 3⟩, ⟨.Germany, 1900, 3⟩, ⟨.Italy, 1900, 3⟩,
        ⟨.Russia, 1900, 4⟩, ⟨.Turkey, 1900, 3⟩] : List CentreCount),
        cc.power = p ∧ cc.year = FIRST_YEAR - 1 ∧ cc.count = p.starting_centres) ∧
      years_played [⟨.Austria, 1900, 3⟩, ⟨.England, 1900, 3⟩, ⟨.France, 1900, 3⟩,
        ⟨.Germany, 1900, 3⟩, ⟨.Italy, 1900, 3⟩, ⟨.Russia, 1900, 4⟩,
        ⟨.Turkey, 1900, 3⟩] ≠ [] ∧
      (game_final_year [⟨.Austria, 1900, 3⟩, ⟨.England, 1900, 3⟩,
        ⟨.France, 1900, 3⟩, ⟨.Germany, 1900, 3⟩, ⟨.Italy, 1900, 3⟩,
        ⟨.Russia, 1900, 4⟩, ⟨.Turkey, 1900, 3⟩]).isSome = true) :=
  ⟨by decide, c10_save_creates_1900_counts []
    [⟨.Austria, 1900, 3⟩, ⟨.England, 1900, 3⟩, ⟨.France, 1900, 3⟩,
     ⟨.Germany, 1900, 3⟩, ⟨.Italy, 1900, 3⟩, ⟨.Russia, 1900, 4⟩,
     ⟨.Turkey, 1900, 3⟩] (by decide)⟩

/- ------------------------------------------------------------------ -/
/- C7: ledger progression validation                                  -/
/- ------------------------------------------------------------------ -/

/-- Claim C7: recording a centre count fails when a record of the same power
    exists at the previous year and either the new count is more than double
    the prior one, or the prior count is 0 and the new one positive; with no
    previous-year record the progression check is skipped and the record is
    accepted, provided the count is within [0, TOTAL_SCS] and the year is
    within the round's range. -/
theorem c7_progression_validation :
    (∀ (fy : Option Nat) (existing : List CentreCount) (cc prev : CentreCount),
      existing.find? (fun p0 =>
        decide (p0.power = cc.power ∧ p0.year + 1 = cc.year)) = some prev →
      2 * prev.count < cc.count →
      record_centre_count fy existing cc ≠ none) ∧
    (∀ (fy : Option Nat) (existing : List CentreCount) (cc prev : CentreCount),
      existing.find? (fun p0 =>
        decide (p0.power = cc.power ∧ p0.year + 1 = cc.year)) = some prev →
      prev.count = 0 → 0 < cc.count →
      record_centre_count fy existing cc ≠ none) ∧
    (∀ (fy : Option Nat) (existing : List CentreCount) (cc : CentreCount),
      existing.find? (fun p0 =>
        decide (p0.power = cc.power ∧ p0.year + 1 = cc.year)) = none →
      FIRST_YEAR - 1 ≤ cc.year → cc.count ≤ TOTAL_SCS →
      (∀ y, fy = some y → y ≠ 0 → cc.year ≤ y) →
      record_centre_count fy existing cc = none) := by
  refine ⟨?_, ?_, ?_⟩
  · intro fy existing cc prev hfind hlt
    unfold record_centre_count centrecount_clean
    rw [hfind]
    cases fy with
    | none => split_ifs <;> simp_all
    | some y => split_ifs <;> simp_all <;> split <;> simp
  · intro fy existing cc prev hfind hzero hpos
    unfold record_centre_count centrecount_clean
    rw [hfind]
    cases fy with
    | none => split_ifs <;> simp_all
    | some y => split_ifs <;> simp_all <;> split <;> simp
  · intro fy existing cc hfind hyear hcount hfy
    unfold record_centre_count centrecount_clean
    rw [hfind]
    rw [if_neg (by omega), if_neg (by omega)]
    cases fy with
    | none => simp
    | some y =>
      by_cases hy : y = 0
      · subst hy
        simp
      · have hle := hfy y rfl hy
        simp [hy, not_lt.mpr hle]

/- ------------------------------------------------------------------ -/
/- C2: tie-break conservation                                         -/
/- ------------------------------------------------------------------ -/

theorem adjust_rank_score_rps_nil (ccs : List CentreCount) :
    adjust_rank_score ccs [] = some (List.replicate ccs.length 0) := by
  cases ccs <;> simp [adjust_rank_score]

theorem adjust_rank_score_cons (sc : CentreCount) (rest : List CentreCount)
    (rp : ℚ) (rps : List ℚ) :
    adjust_rank_score (sc :: rest) (rp :: rps) =
      match adjust_rank_score ((sc :: rest).drop (leadTies sc.count (sc :: rest)))
          ((rp :: rps).drop (leadTies sc.count (sc :: rest))) with
      | none => none
      | some tail =>
        some (List.replicate (leadTies sc.count (sc :: rest))
          ((((rp :: rps).take (leadTies sc.count (sc :: rest))).sum) /
            ((leadTies sc.count (sc :: rest) : ℚ))) ++ tail) := by
  rw [adjust_rank_score]

theorem adjust_rank_score_sound (n : Nat) :
    ∀ (ccs : List CentreCount) (rps : List ℚ), ccs.length ≤ n →
      rps.length ≤ ccs.length →
      ∃ l, adjust_rank_score ccs rps = some l ∧ l.length = ccs.length ∧
        l.sum = rps.sum := by
  induction n with
  | zero =>
    intro ccs rps hn hlen
    have hccs : ccs = [] := List.length_eq_zero.mp (Nat.le_zero.mp hn)
    subst hccs
    have hrps : rps = [] := List.length_eq_zero.mp (Nat.le_zero.mp hlen)
    subst hrps
    exact ⟨[], by simp [adjust_rank_score_rps_nil], by simp, by simp⟩
  | succ n ih =>
    intro ccs rps hn hlen
    cases rps with
    | nil =>
      exact ⟨List.replicate ccs.length 0, adjust_rank_score_rps_nil ccs, by simp, by simp⟩
    | cons rp rps' =>
      cases ccs with
      | nil => simp at hlen
      | cons sc rest =>
        have hipos : 1 ≤ leadTies sc.count (sc :: rest) := by
          rw [leadTies_cons_self]
          omega
        have hile : leadTies sc.count (sc :: rest) ≤ (sc :: rest).length :=
          leadTies_le _ _
        obtain ⟨t, ht, htlen, htsum⟩ := ih
          ((sc :: rest).drop (leadTies sc.count (sc :: rest)))
          ((rp :: rps').drop (leadTies sc.count (sc :: rest)))
          (by simp only [List.length_drop, List.length_cons] at hn ⊢; omega)
          (by simp only [List.length_drop, List.length_cons] at hlen ⊢; omega)
        refine ⟨List.replicate (leadTies sc.count (sc :: rest))
            ((((rp :: rps').take (leadTies sc.count (sc :: rest))).sum) /
              ((leadTies sc.count (sc :: rest) : ℚ))) ++ t, ?_, ?_, ?_⟩
        · rw [adjust_rank_score_cons, ht]
        · simp only [List.length_append, List.length_replicate, htlen,
            List.length_drop, List.length_cons] at *
          omega
        · have hcast : ((leadTies sc.count (sc :: rest) : ℚ)) ≠ 0 :=
            Nat.cast_ne_zero.mpr (by omega)
          rw [List.sum_append, List.sum_replicate, htsum, nsmul_eq_mul,
            mul_div_cancel₀ _ hcast, ← List.sum_append, List.take_append_drop]

theorem leadTies_of_all (scs : Nat) (l : List CentreCount)
    (h : ∀ x ∈ l, x.count = scs) : leadTies scs l = l.length := by
  induction l with
  | nil => simp [leadTies]
  | cons a t ih =>
    have ha : a.count = scs := h a (by simp)
    have ht := ih (fun x hx => h x (by simp [hx]))
    simp [leadTies, ha, ht]

theorem adjust_rank_score_all_tied (sc : CentreCount) (rest : List CentreCount)
    (rps : List ℚ) (hall : ∀ x ∈ sc :: rest, x.count = sc.count)
    (hlen : rps.length ≤ (sc :: rest).length) :
    adjust_rank_score (sc :: rest) rps =
      some (List.replicate (sc :: rest).length
        (rps.sum / ((sc :: rest).length : ℚ))) := by
  cases rps with
  | nil => simp [adjust_rank_score_rps_nil]
  | cons rp rps' =>
    have hi : leadTies sc.count (sc :: rest) = (sc :: rest).length :=
      leadTies_of_all _ _ hall
    rw [adjust_rank_score_cons, hi, List.take_of_length_le hlen,
      List.drop_length, List.drop_eq_nil_of_le hlen]
    simp [adjust_rank_score_rps_nil]

/-- Claim C2 is false as stated: for the descending one-record list C and
    the two-position list P = [25, 14] the source raises IndexError in the
    recursive call (it reads centre_counts[0] of an empty list), so no list
    of per-record values is returned at all. -/
theorem c2_counterexample_crash_on_short_counts :
    adjust_rank_score [{ power := .Austria, year := 1905, count := 5 }] [25, 14] = none ∧
    List.Sorted (fun a b => b.count ≤ a.count)
      [({ power := .Austria, year := 1905, count := 5 } : CentreCount)] := by
  constructor
  · simp [adjust_rank_score, leadTies]
  · simp

/-- Claim C2 (amended): for every descending count list C and point list P
    with at most as many positions as there are records, adjust_rank_score
    returns a list with one entry per record summing to the sum of P; an
    empty P yields all zeros, and when every count ties the result is an
    even split of the total.  (With more positions than records the source
    raises IndexError instead of returning.) -/
theorem c2_tie_break_conservation (ccs : List CentreCount) (rps : List ℚ)
    (_hsorted : List.Sorted (fun a b => b.count ≤ a.count) ccs)
    (hlen : rps.length ≤ ccs.length) :
    (∃ l, adjust_rank_score ccs rps = some l ∧ l.length = ccs.length ∧
      l.sum = rps.sum) ∧
    (rps = [] → adjust_rank_score ccs rps = some (List.replicate ccs.length 0)) ∧
    (ccs ≠ [] → (∀ x ∈ ccs, ∀ y ∈ ccs, x.count = y.count) →
      adjust_rank_score ccs rps =
        some (List.replicate ccs.length (rps.sum / (ccs.length : ℚ)))) := by
  refine ⟨adjust_rank_score_sound ccs.length ccs rps le_rfl hlen, ?_, ?_⟩
  · rintro rfl
    exact adjust_rank_score_rps_nil ccs
  · intro hne hall
    cases ccs with
    | nil => exact absurd rfl hne
    | cons sc rest =>
      exact adjust_rank_score_all_tied sc rest rps
        (fun x hx => hall x hx sc (by simp)) hlen

/-- The two-record all-tied list used to witness c2_tie_break_conservation. -/
def ccsTiedPair : List CentreCount :=
  [⟨.Austria, 1905, 7⟩, ⟨.England, 1905, 7⟩]

/-- Witness for c2_tie_break_conservation at a concrete all-tied input. -/
theorem c2_tie_break_conservation_witness :
    (∃ l, adjust_rank_score ccsTiedPair [10] = some l ∧
      l.length = ccsTiedPair.length ∧ l.sum = ([10] : List ℚ).sum) ∧
    (([10] : List ℚ) = [] → adjust_rank_score ccsTiedPair [10] =
      some (List.replicate ccsTiedPair.length 0)) ∧
    (ccsTiedPair ≠ [] →
      (∀ x ∈ ccsTiedPair, ∀ y ∈ ccsTiedPair, x.count = y.count) →
      adjust_rank_score ccsTiedPair [10] =
        some (List.replicate ccsTiedPair.length
          (([10] : List ℚ).sum / (ccsTiedPair.length : ℚ)))) :=
  c2_tie_break_conservation ccsTiedPair [10]
    (by simp [ccsTiedPair]) (by simp [ccsTiedPair])

/- ------------------------------------------------------------------ -/
/- C8: soloer is detected over the whole history                      -/
/- ------------------------------------------------------------------ -/

theorem sortByCountDesc_eq_nil (ccs : List CentreCount)
    (h : sortByCountDesc ccs = []) : ccs = [] := by
  have hp := List.perm_insertionSort (fun a b => b.count ≤ a.count) ccs
  rw [show ccs.insertionSort (fun a b => b.count ≤ a.count) = sortByCountDesc ccs from rfl,
    h] at hp
  exact hp.symm.eq_nil

theorem sortByCountDesc_head_mem (ccs : List CentreCount) (sc : CentreCount)
    (t : List CentreCount) (h : sortByCountDesc ccs = sc :: t) : sc ∈ ccs :=
  (List.mem_insertionSort _).mp (show sc ∈ sortByCountDesc ccs by
    rw [h]
    exact List.mem_cons_self sc t)

theorem sortByCountDesc_head_dominates (ccs : List CentreCount) (sc : CentreCount)
    (t : List CentreCount) (h : sortByCountDesc ccs = sc :: t) :
    ∀ cc ∈ ccs, cc.count ≤ sc.count := by
  intro cc hmem
  have hs : List.Sorted (fun a b => b.count ≤ a.count) (sc :: t) := by
    rw [← h]
    exact List.sorted_insertionSort _ ccs
  have hm : cc ∈ sc :: t := by
    rw [← h]
    exact (List.mem_insertionSort _).mpr hmem
  rcases List.mem_cons.mp hm with heq | hmt
  · rw [heq]
  · exact List.rel_of_sorted_cons hs cc hmt

theorem soloer_isSome_iff (ccs : List CentreCount) (hne : ccs ≠ []) :
    (soloer ccs).isSome ↔ ∃ cc ∈ ccs, WINNING_SCS ≤ cc.count := by
  cases h : sortByCountDesc ccs with
  | nil => exact absurd (sortByCountDesc_eq_nil ccs h) hne
  | cons sc t =>
    simp only [soloer, h]
    constructor
    · intro hs
      by_cases hc : WINNING_SCS ≤ sc.count
      · exact ⟨sc, sortByCountDesc_head_mem ccs sc t h, hc⟩
      · simp [hc] at hs
    · rintro ⟨cc, hmem, hcc⟩
      have hle := sortByCountDesc_head_dominates ccs sc t h cc hmem
      simp [le_trans hcc hle]

/-- The standard starting centre counts of year 1900. -/
def start1900 : List CentreCount :=
  [⟨.Austria, 1900, 3⟩, ⟨.England, 1900, 3⟩, ⟨.France, 1900, 3⟩,
   ⟨.Germany, 1900, 3⟩, ⟨.Italy, 1900, 3⟩, ⟨.Russia, 1900, 4⟩, ⟨.Turkey, 1900, 3⟩]

/-- A history in which Austria reached 18 centres in 1904 and fell back to
    17 in 1905: the soloed test rests on the whole history, not on the
    final year. -/
def ccsSoloDrop : List CentreCount :=
  start1900 ++
  [⟨.Austria, 1904, 18⟩, ⟨.England, 1904, 8⟩, ⟨.France, 1904, 8⟩,
   ⟨.Germany, 1904, 0⟩, ⟨.Italy, 1904, 0⟩, ⟨.Russia, 1904, 0⟩, ⟨.Turkey, 1904, 0⟩] ++
  [⟨.Austria, 1905, 17⟩, ⟨.England, 1905, 9⟩, ⟨.France, 1905, 8⟩,
   ⟨.Germany, 1905, 0⟩, ⟨.Italy, 1905, 0⟩, ⟨.Russia, 1905, 0⟩, ⟨.Turkey, 1905, 0⟩]

/-- Claim C8: Game.soloer() reports a solo exactly when some centre count of
    ANY recorded year reaches WINNING_SCS, and GScoringDrawSize.scores uses
    it, so a game whose final-year counts are all below the threshold can
    still be scored as soloed: on ccsSoloDrop every power scores 0. -/
theorem c8_soloer_over_whole_history :
    (∀ ccs : List CentreCount, ccs ≠ [] →
      ((soloer ccs).isSome ↔ ∃ cc ∈ ccs, WINNING_SCS ≤ cc.count)) ∧
    (soloer ccsSoloDrop).isSome = true ∧
    (∀ cc ∈ _final_year_scs ccsSoloDrop, cc.count < WINNING_SCS) ∧
    gscoring_draw_size false none ccsSoloDrop =
      [(.Austria, 0), (.England, 0), (.France, 0), (.Germany, 0),
       (.Italy, 0), (.Russia, 0), (.Turkey, 0)] := by
  refine ⟨soloer_isSome_iff, ?_, ?_, ?_⟩
  · decide
  · decide
  · decide

/-- Witness for the quantified part of c8_soloer_over_whole_history. -/
theorem c8_soloer_over_whole_history_witness :
    (([⟨.Austria, 1904, 18⟩] : List CentreCount) ≠ []) ∧
    ((soloer [⟨.Austria, 1904, 18⟩]).isSome ↔
      ∃ cc ∈ ([⟨.Austria, 1904, 18⟩] : List CentreCount), WINNING_SCS ≤ cc.count) :=
  ⟨by simp, c8_soloer_over_whole_history.1 [⟨.Austria, 1904, 18⟩] (by simp)⟩

/- ------------------------------------------------------------------ -/
/- C5: CDiplo-80 end-to-end scenario                                  -/
/- ------------------------------------------------------------------ -/

/-- The C5 scenario: final-year counts Austria 10, England 10, France 6,
    everyone else 0 (no solo, no passed draw). -/
def ccsCDiplo : List CentreCount :=
  start1900 ++
  [⟨.Austria, 1905, 10⟩, ⟨.England, 1905, 10⟩, ⟨.France, 1905, 6⟩,
   ⟨.Germany, 1905, 0⟩, ⟨.Italy, 1905, 0⟩, ⟨.Russia, 1905, 0⟩, ⟨.Turkey, 1905, 0⟩]

theorem final_year_scs_ccsCDiplo :
    _final_year_scs ccsCDiplo =
      [⟨.Austria, 1905, 10⟩, ⟨.England, 1905, 10⟩, ⟨.France, 1905, 6⟩,
       ⟨.Germany, 1905, 0⟩, ⟨.Italy, 1905, 0⟩, ⟨.Russia, 1905, 0⟩,
       ⟨.Turkey, 1905, 0⟩] := by
  decide

theorem adjust_ccsCDiplo :
    adjust_rank_score
      [⟨.Austria, 1905, 10⟩, ⟨.England, 1905, 10⟩, ⟨.France, 1905, 6⟩,
       ⟨.Germany, 1905, 0⟩, ⟨.Italy, 1905, 0⟩, ⟨.Russia, 1905, 0⟩,
       ⟨.Turkey, 1905, 0⟩] cdiplo_80_initial_pts =
      some [39/2, 39/2, 7, 0, 0, 0, 0] := by
  simp [adjust_rank_score, leadTies, cdiplo_80_initial_pts]
  norm_num

/-- Claim C5: under CDiplo 80 the scenario scores Austria and England 29.5
    each (10 centres plus the shared (25+14)/2 = 19.5 first/second bonus),
    France 13 (6 centres plus the third-place 7), and every eliminated
    power 0. -/
theorem c5_cdiplo80_scenario :
    cdiplo_80_scores cdiplo_80_initial_pts ccsCDiplo =
      some [(.Austria, 59/2), (.England, 59/2), (.France, 13),
            (.Germany, 0), (.Italy, 0), (.Russia, 0), (.Turkey, 0)] := by
  unfold cdiplo_80_scores gscoring_cdiplo
  simp only [final_year_scs_ccsCDiplo, adjust_ccsCDiplo]
  simp [WINNING_SCS, TOTAL_SCS]
  norm_num

/- ------------------------------------------------------------------ -/
/- C1: draw-size scoring and powers outside a passed draw             -/
/- ------------------------------------------------------------------ -/

/-- A non-DIAS game with no solo anywhere, three survivors in 1905 and a
    passed two-way draw naming only Austria and England; France survives
    outside the draw. -/
def ccsDrawExcl : List CentreCount :=
  start1900 ++
  [⟨.Austria, 1905, 12⟩, ⟨.England, 1905, 12⟩, ⟨.France, 1905, 10⟩,
   ⟨.Germany, 1905, 0⟩, ⟨.Italy, 1905, 0⟩, ⟨.Russia, 1905, 0⟩, ⟨.Turkey, 1905, 0⟩]

/-- Claim C1 fails on the code: with the passed draw naming Austria and
    England, the surviving excluded France scores 100/survivors = 100/3
    instead of the 0 the claim requires (the if/elif chain falls through to
    the surviving-powers branch for a power outside the draw), so the seven
    scores total more than 100. -/
theorem c1_drawsize_excluded_survivor_eval :
    gscoring_draw_size false (some ⟨[.Austria, .England]⟩) ccsDrawExcl =
      [(.Austria, 50), (.England, 50), (.France, 100/3),
       (.Germany, 0), (.Italy, 0), (.Russia, 0), (.Turkey, 0)] ∧
    (100/3 : ℚ) ≠ 0 := by
  constructor
  · have hf : _final_year_scs ccsDrawExcl =
        [⟨.Austria, 1905, 12⟩, ⟨.England, 1905, 12⟩, ⟨.France, 1905, 10⟩,
         ⟨.Germany, 1905, 0⟩, ⟨.Italy, 1905, 0⟩, ⟨.Russia, 1905, 0⟩,
         ⟨.Turkey, 1905, 0⟩] := by decide
    have hs : _survivor_count ccsDrawExcl = 3 := by decide
    have hsol : soloer ccsDrawExcl = none := by decide
    unfold gscoring_draw_size
    simp only [hf, hs, hsol]
    simp [WINNING_SCS, TOTAL_SCS, DrawProposal.draw_size]
    norm_num
  · norm_num

/- ------------------------------------------------------------------ -/
/- C4: adjust_rank_score mutates its rank_points argument             -/
/- ------------------------------------------------------------------ -/

/-- A follow-up game with no tie at the top: Austria 12, England 10,
    France 6, everyone else eliminated. -/
def ccsFollowUp : List CentreCount :=
  start1900 ++
  [⟨.Austria, 1905, 12⟩, ⟨.England, 1905, 10⟩, ⟨.France, 1905, 6⟩,
   ⟨.Germany, 1905, 0⟩, ⟨.Italy, 1905, 0⟩, ⟨.Russia, 1905, 0⟩, ⟨.Turkey, 1905, 0⟩]

theorem final_year_scs_ccsFollowUp :
    _final_year_scs ccsFollowUp =
      [⟨.Austria, 1905, 12⟩, ⟨.England, 1905, 10⟩, ⟨.France, 1905, 6⟩,
       ⟨.Germany, 1905, 0⟩, ⟨.Italy, 1905, 0⟩, ⟨.Russia, 1905, 0⟩,
       ⟨.Turkey, 1905, 0⟩] := by
  decide

/-- Claim C4 fails on the code: scoring the tied-top game ccsCDiplo rewrites
    the CDiplo instance's position_pts from [25, 14, 7] to [19.5, 19.5, 7]
    in place, so a second scores() call on the same instance — here on the
    untied follow-up game — uses different position values and returns
    different scores (Austria 31.5 instead of 37). -/
theorem c4_adjust_rank_score_mutates_argument :
    adjust_rank_score_post (_final_year_scs ccsCDiplo) cdiplo_80_initial_pts =
      [39/2, 39/2, 7] ∧
    adjust_rank_score_post (_final_year_scs ccsCDiplo) cdiplo_80_initial_pts ≠
      cdiplo_80_initial_pts ∧
    cdiplo_80_scores [39/2, 39/2, 7] ccsFollowUp ≠
      cdiplo_80_scores cdiplo_80_initial_pts ccsFollowUp := by
  have hpost : adjust_rank_score_post (_final_year_scs ccsCDiplo) cdiplo_80_initial_pts =
      [39/2, 39/2, 7] := by
    rw [final_year_scs_ccsCDiplo]
    simp [adjust_rank_score_post, leadTies, cdiplo_80_initial_pts]
    norm_num
  refine ⟨hpost, ?_, ?_⟩
  · rw [hpost]
    simp [cdiplo_80_initial_pts]
    norm_num
  · have ha1 : adjust_rank_score
        [⟨.Austria, 1905, 12⟩, ⟨.England, 1905, 10⟩, ⟨.France, 1905, 6⟩,
         ⟨.Germany, 1905, 0⟩, ⟨.Italy, 1905, 0⟩, ⟨.Russia, 1905, 0⟩,
         ⟨.Turkey, 1905, 0⟩] [39/2, 39/2, 7] =
        some [39/2, 39/2, 7, 0, 0, 0, 0] := by
      simp [adjust_rank_score, leadTies]
    have ha2 : adjust_rank_score
        [⟨.Austria, 1905, 12⟩, ⟨.England, 1905, 10⟩, ⟨.France, 1905, 6⟩,
         ⟨.Germany, 1905, 0⟩, ⟨.Italy, 1905, 0⟩, ⟨.Russia, 1905, 0⟩,
         ⟨.Turkey, 1905, 0⟩] cdiplo_80_initial_pts =
        some [25, 14, 7, 0, 0, 0, 0] := by
      simp [adjust_rank_score, leadTies, cdiplo_80_initial_pts]
    unfold cdiplo_80_scores gscoring_cdiplo
    simp only [final_year_scs_ccsFollowUp, ha1, ha2]
    simp [WINNING_SCS, TOTAL_SCS]
    norm_num

/- ------------------------------------------------------------------ -/
/- C6: sum-of-squares scoring                                         -/
/- ------------------------------------------------------------------ -/

theorem list_sum_map_div (l : List CentreCount) (f : CentreCount → ℚ) (d : ℚ) :
    (l.map (fun x => f x / d)).sum = (l.map f).sum / d := by
  induction l with
  | nil => simp
  | cons a t ih => simp [ih, add_div]

theorem cast_sum_sq (l : List CentreCount) :
    (((l.map (fun sc => sc.count * sc.count)).sum : Nat) : ℚ) =
      (l.map (fun sc => (sc.count : ℚ) * sc.count)).sum := by
  induction l with
  | nil => simp
  | cons a t ih =>
    simp only [List.map_cons, List.sum_cons, Nat.cast_add, Nat.cast_mul, ih]

/-- Claim C6: with no final-year count at the solo threshold and a positive
    sum of squared counts, every power scores 100·count²/Σcount² and the
    scores total exactly 100; when a record does reach the threshold in a
    history whose final-year counts stay within the 34-centre pool, that
    record scores 100 and every other one scores 0. -/
theorem c6_sum_of_squares (ccs : List CentreCount) :
    ((∀ sc ∈ _final_year_scs ccs, sc.count < WINNING_SCS) →
      0 < ((_final_year_scs ccs).map (fun sc => sc.count * sc.count)).sum →
      gscoring_sum_of_squares ccs =
        (_final_year_scs ccs).map (fun sc =>
          (sc.power, 100 * (sc.count : ℚ) ^ 2 /
            ((((_final_year_scs ccs).map (fun sc => sc.count * sc.count)).sum : Nat) : ℚ))) ∧
      ((gscoring_sum_of_squares ccs).map (fun x => x.2)).sum = 100) ∧
    (∀ sc0 ∈ _final_year_scs ccs, WINNING_SCS ≤ sc0.count →
      ((_final_year_scs ccs).map (fun sc => sc.count)).sum ≤ TOTAL_SCS →
      gscoring_sum_of_squares ccs =
        (_final_year_scs ccs).map (fun sc =>
          (sc.power, if sc = sc0 then (100 : ℚ) else 0))) := by
  constructor
  · intro hlt hpos
    have hany : ((_final_year_scs ccs).any (fun sc => WINNING_SCS ≤ sc.count)) = false := by
      simp only [List.any_eq_false, decide_eq_true_eq]
      intro sc hsc
      exact not_le.mpr (hlt sc hsc)
    have hne : ((((_final_year_scs ccs).map (fun sc => sc.count * sc.count)).sum : Nat) : ℚ) ≠ 0 :=
      Nat.cast_ne_zero.mpr (by omega)
    have hbranch : gscoring_sum_of_squares ccs =
        (_final_year_scs ccs).map (fun sc =>
          (sc.power, (sc.count : ℚ) * sc.count * 100 /
            ((((_final_year_scs ccs).map (fun sc => sc.count * sc.count)).sum : Nat) : ℚ))) := by
      unfold gscoring_sum_of_squares
      simp only [hany, Bool.false_eq_true, if_false]
    constructor
    · rw [hbranch]
      apply List.map_congr_left
      intro sc _
      have harith : (sc.count : ℚ) * sc.count * 100 = 100 * (sc.count : ℚ) ^ 2 := by ring
      rw [harith]
    · rw [hbranch, List.map_map]
      have hcomp : ((fun x : GreatPower × ℚ => x.2) ∘ (fun sc : CentreCount =>
          (sc.power, (sc.count : ℚ) * sc.count * 100 /
            ((((_final_year_scs ccs).map (fun sc => sc.count * sc.count)).sum : Nat) : ℚ)))) =
          (fun sc : CentreCount => (sc.count : ℚ) * sc.count * 100 /
            ((((_final_year_scs ccs).map (fun sc => sc.count * sc.count)).sum : Nat) : ℚ)) := rfl
      rw [hcomp, list_sum_map_div]
      have hnum : ((_final_year_scs ccs).map (fun sc => (sc.count : ℚ) * sc.count * 100)).sum =
          ((_final_year_scs ccs).map (fun sc => (sc.count : ℚ) * sc.count)).sum * 100 :=
        List.sum_map_mul_right _ _ _
      rw [hnum, ← cast_sum_sq, mul_comm, mul_div_assoc, div_self hne, mul_one]
  · intro sc0 hmem hsc0 hsum
    have hany : ((_final_year_scs ccs).any (fun sc => WINNING_SCS ≤ sc.count)) = true :=
      List.any_eq_true.mpr ⟨sc0, hmem, by simpa using hsc0⟩
    unfold gscoring_sum_of_squares
    simp only [hany, if_true]
    apply List.map_congr_left
    intro sc hsc
    by_cases h : sc = sc0
    · subst h
      rw [if_pos hsc0, if_pos rfl]
    · have hlt : sc.count < WINNING_SCS := by
        by_contra hge
        push_neg at hge
        have hperm := List.perm_cons_erase hmem
        have hsc' : sc ∈ (_final_year_scs ccs).erase sc0 :=
          (List.mem_erase_of_ne h).mpr hsc
        have hsum2 : ((_final_year_scs ccs).map (fun x => x.count)).sum =
            sc0.count + (((_final_year_scs ccs).erase sc0).map (fun x => x.count)).sum := by
          rw [(hperm.map (fun x => x.count)).sum_eq]
          simp
        have hle : sc.count ≤ (((_final_year_scs ccs).erase sc0).map (fun x => x.count)).sum :=
          List.single_le_sum (fun _ _ => Nat.zero_le _) _
            (List.mem_map.mpr ⟨sc, hsc', rfl⟩)
        simp only [WINNING_SCS, TOTAL_SCS] at hsc0 hge hsum
        omega
      rw [if_neg (not_le.mpr hlt), if_neg h]

/-- A game whose final year has Austria at the 18-centre threshold and the
    full 34-centre pool accounted for. -/
def ccsSolo : List CentreCount :=
  start1900 ++
  [⟨.Austria, 1905, 18⟩, ⟨.England, 1905, 16⟩, ⟨.France, 1905, 0⟩,
   ⟨.Germany, 1905, 0⟩, ⟨.Italy, 1905, 0⟩, ⟨.Russia, 1905, 0⟩, ⟨.Turkey, 1905, 0⟩]

/-- Witness for c6_sum_of_squares: the no-solo part on ccsCDiplo, the solo
    part on ccsSolo. -/
theorem c6_sum_of_squares_witness :
    (gscoring_sum_of_squares ccsCDiplo =
      (_final_year_scs ccsCDiplo).map (fun sc =>
        (sc.power, 100 * (sc.count : ℚ) ^ 2 /
          ((((_final_year_scs ccsCDiplo).map (fun sc => sc.count * sc.count)).sum : Nat) : ℚ))) ∧
      ((gscoring_sum_of_squares ccsCDiplo).map (fun x => x.2)).sum = 100) ∧
    gscoring_sum_of_squares ccsSolo =
      (_final_year_scs ccsSolo).map (fun sc =>
        (sc.power, if sc = (⟨.Austria, 1905, 18⟩ : CentreCount) then (100 : ℚ) else 0)) :=
  ⟨(c6_sum_of_squares ccsCDiplo).1 (by decide) (by decide),
   (c6_sum_of_squares ccsSolo).2 ⟨.Austria, 1905, 18⟩ (by decide) (by decide) (by decide)⟩

/- ------------------------------------------------------------------ -/
/- C3: saving an already-finished game                                -/
/- ------------------------------------------------------------------ -/

theorem adjust_rank_score_post_fix (ccs : List CentreCount) (rps : List ℚ) :
    adjust_rank_score ccs (adjust_rank_score_post ccs rps) =
      adjust_rank_score ccs rps := by
  cases rps with
  | nil => rfl
  | cons rp rps' =>
    cases ccs with
    | nil => rfl
    | cons sc rest =>
      have hpost : adjust_rank_score_post (sc :: rest) (rp :: rps') =
          List.replicate (leadTies sc.count (sc :: rest))
            ((((rp :: rps').take (leadTies sc.count (sc :: rest))).sum) /
              ((leadTies sc.count (sc :: rest) : ℚ))) ++
            (rp :: rps').drop (leadTies sc.count (sc :: rest)) := rfl
      obtain ⟨k, hk⟩ : ∃ k, leadTies sc.count (sc :: rest) = k + 1 :=
        ⟨leadTies sc.count rest, leadTies_cons_self sc rest⟩
      have hcast : ((leadTies sc.count (sc :: rest) : ℚ)) ≠ 0 :=
        Nat.cast_ne_zero.mpr (by omega)
      rw [hpost]
      have hrepl : List.replicate (leadTies sc.count (sc :: rest))
            ((((rp :: rps').take (leadTies sc.count (sc :: rest))).sum) /
              ((leadTies sc.count (sc :: rest) : ℚ))) ++
            (rp :: rps').drop (leadTies sc.count (sc :: rest)) =
          ((((rp :: rps').take (leadTies sc.count (sc :: rest))).sum) /
              ((leadTies sc.count (sc :: rest) : ℚ))) ::
            (List.replicate k ((((rp :: rps').take (leadTies sc.count (sc :: rest))).sum) /
              ((leadTies sc.count (sc :: rest) : ℚ))) ++
              (rp :: rps').drop (leadTies sc.count (sc :: rest))) := by
        rw [hk, List.replicate_succ, List.cons_append]
      rw [hrepl, adjust_rank_score_cons, adjust_rank_score_cons]
      have htake : ((((rp :: rps').take (leadTies sc.count (sc :: rest))).sum /
            ((leadTies sc.count (sc :: rest) : ℚ))) ::
          (List.replicate k ((((rp :: rps').take (leadTies sc.count (sc :: rest))).sum) /
            ((leadTies sc.count (sc :: rest) : ℚ))) ++
            (rp :: rps').drop (leadTies sc.count (sc :: rest)))).take
          (leadTies sc.count (sc :: rest)) =
          List.replicate (leadTies sc.count (sc :: rest))
            ((((rp :: rps').take (leadTies sc.count (sc :: rest))).sum) /
              ((leadTies sc.count (sc :: rest) : ℚ))) := by
        rw [hk, List.take_succ_cons, List.take_left' (List.length_replicate _ _),
          List.replicate_succ]
      have hdrop : ((((rp :: rps').take (leadTies sc.count (sc :: rest))).sum /
            ((leadTies sc.count (sc :: rest) : ℚ))) ::
          (List.replicate k ((((rp :: rps').take (leadTies sc.count (sc :: rest))).sum) /
            ((leadTies sc.count (sc :: rest) : ℚ))) ++
            (rp :: rps').drop (leadTies sc.count (sc :: rest)))).drop
          (leadTies sc.count (sc :: rest)) =
          (rp :: rps').drop (leadTies sc.count (sc :: rest)) := by
        rw [hk, List.drop_succ_cons, List.drop_left' (List.length_replicate _ _)]
      rw [htake, hdrop]
      have hsum : (List.replicate (leadTies sc.count (sc :: rest))
            ((((rp :: rps').take (leadTies sc.count (sc :: rest))).sum) /
              ((leadTies sc.count (sc :: rest) : ℚ)))).sum =
          (((rp :: rps').take (leadTies sc.count (sc :: rest))).sum) := by
        rw [List.sum_replicate, nsmul_eq_mul, mul_div_cancel₀ _ hcast]
      rw [hsum]

theorem cdiplo_80_scores_post_fix (pts : List ℚ) (ccs : List CentreCount) :
    cdiplo_80_scores (adjust_rank_score_post (_final_year_scs ccs) pts) ccs =
      cdiplo_80_scores pts ccs := by
  unfold cdiplo_80_scores gscoring_cdiplo
  simp only [adjust_rank_score_post_fix]

/-- Claim C3 (amended): there is no transition guard, so the finalization
    block of Game.save runs again on every save of a finished game; but with
    no other scoring activity in between, re-running it recomputes the same
    values (the re-scoring is a fixed point of the position_pts mutation),
    so a second save leaves every persisted GamePlayer, RoundPlayer and
    TournamentPlayer score unchanged while incrementing the fire count. -/
theorem c3_second_save_rescores_same_values (w : WorldState)
    (hf : w.is_finished = true) (w1 : WorldState) (h1 : game_save w = some w1) :
    ∃ w2, game_save w1 = some w2 ∧ w2.gp_scores = w1.gp_scores ∧
      w2.rp_scores = w1.rp_scores ∧ w2.tp_scores = w1.tp_scores ∧
      w2.fires = w1.fires + 1 := by
  unfold game_save at h1
  cases hens : ensure1900 w.ccs with
  | none =>
    rw [hens] at h1
    simp at h1
  | some c1 =>
    rw [hens] at h1
    simp only [] at h1
    rw [hf] at h1
    simp only [if_true] at h1
    cases hscs : cdiplo_80_scores w.position_pts c1 with
    | none =>
      rw [hscs] at h1
      simp at h1
    | some scs =>
      rw [hscs] at h1
      simp only [] at h1
      cases hgp : allPowers.mapM (fun p => (scoreOf scs p).map (fun s => (p, s))) with
      | none =>
        rw [hgp] at h1
        simp at h1
      | some gp =>
        rw [hgp] at h1
        simp only [Option.some.injEq] at h1
        subst h1
        unfold game_save
        simp only []
        rw [ensure1900_idem w.ccs c1 hens]
        simp only []
        rw [if_true]
        rw [show cdiplo_80_scores
            (adjust_rank_score_post (_final_year_scs c1) w.position_pts) c1 =
            cdiplo_80_scores w.position_pts c1 from
          cdiplo_80_scores_post_fix w.position_pts c1]
        rw [hscs]
        simp only []
        rw [hgp]
        exact ⟨_, rfl, rfl, rfl, rfl, rfl⟩

theorem ensure1900_ccsCDiplo : ensure1900 ccsCDiplo = some ccsCDiplo := by decide

/-- The CDiplo-80 scores of ccsCDiplo. -/
def scoresCDiplo : List (GreatPower × ℚ) :=
  [(.Austria, 59/2), (.England, 59/2), (.France, 13),
   (.Germany, 0), (.Italy, 0), (.Russia, 0), (.Turkey, 0)]

theorem cdiplo80_eval_ccsCDiplo :
    cdiplo_80_scores cdiplo_80_initial_pts ccsCDiplo = some scoresCDiplo := by
  unfold cdiplo_80_scores gscoring_cdiplo scoresCDiplo
  simp only [final_year_scs_ccsCDiplo, adjust_ccsCDiplo]
  simp [WINNING_SCS, TOTAL_SCS]
  norm_num

theorem post_ccsCDiplo :
    adjust_rank_score_post (_final_year_scs ccsCDiplo) cdiplo_80_initial_pts =
      [39/2, 39/2, 7] := by
  rw [final_year_scs_ccsCDiplo]
  simp [adjust_rank_score_post, leadTies, cdiplo_80_initial_pts]
  norm_num

theorem mapM_scoresCDiplo :
    allPowers.mapM (fun p => (scoreOf scoresCDiplo p).map (fun s => (p, s))) =
      some scoresCDiplo := by
  rfl

/-- The persisted state around the finished game ccsCDiplo before its
    finalization block has ever run. -/
def wFin0 : WorldState :=
  { ccs := ccsCDiplo, is_finished := true, position_pts := cdiplo_80_initial_pts,
    gp_scores := [], rp_scores := [], tp_scores := [], fires := 0 }

/-- The state after one save of wFin0: scores persisted at every level, the
    CDiplo position list mutated, the block fired once. -/
def wFin1 : WorldState :=
  { ccs := ccsCDiplo, is_finished := true, position_pts := [39/2, 39/2, 7],
    gp_scores := scoresCDiplo, rp_scores := scoresCDiplo,
    tp_scores := scoresCDiplo, fires := 1 }

theorem game_save_wFin0 : game_save wFin0 = some wFin1 := by
  unfold game_save
  simp only [wFin0]
  rw [ensure1900_ccsCDiplo]
  simp only []
  rw [cdiplo80_eval_ccsCDiplo]
  simp only []
  rw [mapM_scoresCDiplo]
  simp only []
  rw [post_ccsCDiplo]
  rfl

theorem post_ccsCDiplo2 :
    adjust_rank_score_post (_final_year_scs ccsCDiplo) [39/2, 39/2, 7] =
      [39/2, 39/2, 7] := by
  rw [final_year_scs_ccsCDiplo]
  simp [adjust_rank_score_post, leadTies]

theorem cdiplo80_eval_ccsCDiplo2 :
    cdiplo_80_scores [39/2, 39/2, 7] ccsCDiplo = some scoresCDiplo := by
  rw [← post_ccsCDiplo, cdiplo_80_scores_post_fix, cdiplo80_eval_ccsCDiplo]

/-- The state after a second save of the already-finished game: identical
    persisted scores, but the finalization block has now run twice. -/
def wFin2 : WorldState :=
  { ccs := ccsCDiplo, is_finished := true, position_pts := [39/2, 39/2, 7],
    gp_scores := scoresCDiplo, rp_scores := scoresCDiplo,
    tp_scores := scoresCDiplo, fires := 2 }

theorem game_save_wFin1 : game_save wFin1 = some wFin2 := by
  unfold game_save
  simp only [wFin1]
  rw [ensure1900_ccsCDiplo]
  simp only []
  rw [cdiplo80_eval_ccsCDiplo2]
  simp only []
  rw [mapM_scoresCDiplo]
  simp only []
  rw [post_ccsCDiplo2]
  rfl

/-- Claim C3 is false as stated: Game.save has no transition guard — its
    finalization block runs whenever is_finished is already true, so saving
    the finished game a second time with unchanged data re-fires the
    score recomputation and persistence (the fire count goes from 1 to 2
    instead of staying at 1). -/
theorem c3_counterexample_second_save_refires :
    (game_save wFin0).bind game_save = some wFin2 ∧
    wFin1.fires = 1 ∧ wFin2.fires = 2 := by
  refine ⟨?_, rfl, rfl⟩
  rw [game_save_wFin0]
  exact game_save_wFin1

/-- Witness for c3_second_save_rescores_same_values on the concrete states. -/
theorem c3_second_save_rescores_same_values_witness :
    wFin0.is_finished = true ∧
    (∃ w2, game_save wFin1 = some w2 ∧ w2.gp_scores = wFin1.gp_scores ∧
      w2.rp_scores = wFin1.rp_scores ∧ w2.tp_scores = wFin1.tp_scores ∧
      w2.fires = wFin1.fires + 1) :=
  ⟨rfl, c3_second_save_rescores_same_values wFin0 rfl wFin1 game_save_wFin0⟩

/-- Witness for c7_progression_validation: count 10 after a prior-year 4 is
    rejected, count 5 after a prior-year 0 is rejected, and a record with no
    prior-year entry is accepted. -/
theorem c7_progression_validation_witness :
    record_centre_count none [⟨.Austria, 1904, 4⟩] ⟨.Austria, 1905, 10⟩ ≠ none ∧
    record_centre_count none [⟨.England, 1904, 0⟩] ⟨.England, 1905, 5⟩ ≠ none ∧
    record_centre_count (some 1910) [] ⟨.France, 1903, 6⟩ = none :=
  ⟨c7_progression_validation.1 none [⟨.Austria, 1904, 4⟩] ⟨.Austria, 1905, 10⟩
      ⟨.Austria, 1904, 4⟩ (by decide) (by decide),
   c7_progression_validation.2.1 none [⟨.England, 1904, 0⟩] ⟨.England, 1905, 5⟩
      ⟨.England, 1904, 0⟩ (by decide) (by decide) (by decide),
   c7_progression_validation.2.2 (some 1910) [] ⟨.France, 1903, 6⟩ (by decide)
      (by decide) (by decide) (fun y hy _ => by injection hy with h; rw [← h]; decide)⟩
